import Mathlib

/- Verification model of the Autoformfiller repository.

   The configuration holder is translated from config_file.py
   (class FormFillerConfig) and the sequencer from main_form_filler.py
   (class FormFiller).  Python floats carrying durations are modelled as
   rationals; pandas cell values are modelled by the type Value with an
   explicit NaN; the pyautogui layer is modelled as an oracle
   (Nat → PrimOutcome) giving the outcome of each successive input-dispatch
   call (pyautogui.hotkey / write / press), together with an event trace of
   everything the code emits (input events, sleeps, log lines).
   KeyboardInterrupt propagates (Python `except Exception` does not catch
   it) and is the `interrupted` result; FailSafeException and other
   exceptions are caught inside each helper and turned into a False
   return, exactly as in the source. -/

namespace Autoformfiller

/-- A pandas cell value: a string, or NaN (missing).  `pd.notna` is false
exactly on NaN. -/
inductive Value where
  | str (s : String)
  | nan
  deriving DecidableEq

/-- pd.notna from main_form_filler.py line 224: false exactly on NaN. -/
def pdNotna : Value → Bool
  | Value.nan => false
  | Value.str _ => true

/-- Python str(value) as applied to a cell value before typing. -/
def valueStr : Value → String
  | Value.str s => s
  | Value.nan => "nan"

/-- A record: one row of the data table, a mapping field name → value
(Python dict; `field_name in record` / `record[field_name]` is lookup). -/
abbrev Record := List (String × Value)

/-- config_file.py, class FormFillerConfig: all fields with their default
values (floats as rationals, Optional[int] as Option Int). -/
structure FormFillerConfig where
  pause_between_actions : ℚ := 1/2
  typing_interval : ℚ := 1/20
  field_transition_delay : ℚ := 3/10
  form_submission_delay : ℚ := 2
  record_delay : ℚ := 1
  page_load_delay : ℚ := 3
  wait_for_page_load : Bool := true
  clear_fields : Bool := true
  use_failsafe : Bool := true
  navigation_method : String := "tab"
  submission_method : String := "enter"
  skip_empty_fields : Bool := true
  max_field_length : Option Int := none
  encoding : String := "utf-8"
  max_records_per_session : Option Int := none
  confirmation_required : Bool := true
  log_level : String := "INFO"
  log_file : Option String := none
  deriving DecidableEq

/-- config_file.py line 174: the default configuration instance. -/
def DEFAULT_CONFIG : FormFillerConfig := {}

/-- Python `x is not None and x <= 0` on an Optional[int]. -/
def nonPositive : Option Int → Bool
  | some v => decide (v ≤ 0)
  | none => false

/-- FormFillerConfig.validate (config_file.py lines 85-111): the if-chain
raising ValueError on the first violated check, modelled as Except. -/
def validate (cfg : FormFillerConfig) : Except String Unit :=
  if cfg.pause_between_actions < 0 then
    Except.error "pause_between_actions must be non-negative"
  else if cfg.typing_interval < 0 then
    Except.error "typing_interval must be non-negative"
  else if cfg.navigation_method ∉ ([ "tab", "enter", "click"] : List String) then
    Except.error "navigation_method must be tab, enter, or click"
  else if cfg.submission_method ∉ ([ "enter", "tab_enter", "click"] : List String) then
    Except.error "submission_method must be enter, tab_enter, or click"
  else if cfg.log_level ∉ ([ "DEBUG", "INFO", "WARNING", "ERROR"] : List String) then
    Except.error "log_level must be DEBUG, INFO, WARNING, or ERROR"
  else if nonPositive cfg.max_field_length then
    Except.error "max_field_length must be positive or None"
  else if nonPositive cfg.max_records_per_session then
    Except.error "max_records_per_session must be positive or None"
  else
    Except.ok ()

/-- One observable step of the sequencer: a pyautogui input event, a sleep,
or a log line.  The structured logInfo/logError constructors model the
corresponding f-string log statements of fill_forms, carrying the numbers
the message would print (record index + 1, as in the source). -/
inductive Event where
  | hotkey (a b : String)
  | write (text : String) (interval : ℚ)
  | press (key : String)
  | sleep (d : ℚ)
  | logWarning (msg : String)
  | logWarningFieldNotFound (field : String)
  | logError (msg : String)
  | logInfoHeader (first last : Int)
  | logInfoProcessing (n total : Nat)
  | logInfoSuccess (n : Nat)
  | logErrorFailedFill (n : Nat)
  | logErrorFailedSubmit (n : Nat)
  | logInfoCompleted
  | logInfoInterrupted (n : Nat)
  deriving DecidableEq

/-- Outcome of one pyautogui input-dispatch call, chosen by the oracle:
success, FailSafeException, another exception, or an asynchronous
KeyboardInterrupt delivered at that call. -/
inductive PrimOutcome where
  | ok
  | failsafe
  | err
  | interrupt
  deriving DecidableEq

/-- Result of a helper: a returned value, or a propagating
KeyboardInterrupt (uncaught by `except Exception`). -/
inductive StepResult (α : Type) where
  | done (a : α)
  | interrupted
  deriving DecidableEq

/-- Whether an event is a pyautogui input-dispatch call (consuming one
oracle outcome); sleeps and log lines always succeed. -/
def isDispatch : Event → Bool
  | Event.hotkey _ _ => true
  | Event.write _ _ => true
  | Event.press _ => true
  | _ => false

/-- Run a straight-line sequence of events against the oracle: stop at the
first dispatch call whose outcome is not ok, returning that outcome, the
events that did happen, and the advanced oracle counter. -/
def runSeq (env : Nat → PrimOutcome) : Nat → List Event → PrimOutcome × List Event × Nat
  | k, [] => (PrimOutcome.ok, [], k)
  | k, e :: rest =>
    if isDispatch e then
      match env k with
      | PrimOutcome.ok =>
        match runSeq env (k + 1) rest with
        | (r, tr, k2) => (r, e :: tr, k2)
      | r => (r, [], k + 1)
    else
      match runSeq env k rest with
      | (r, tr, k2) => (r, e :: tr, k2)

/-- The try/except shape shared by every FormFiller helper: run the body,
catch FailSafeException (log a warning, return False) and Exception (log
an error, return False); KeyboardInterrupt propagates. -/
def tryActions (env : Nat → PrimOutcome) (k : Nat) (acts : List Event)
    (failsafeMsg errMsg : String) : StepResult Bool × List Event × Nat :=
  match runSeq env k acts with
  | (PrimOutcome.ok, tr, k2) => (StepResult.done true, tr, k2)
  | (PrimOutcome.failsafe, tr, k2) =>
    (StepResult.done false, tr ++ [ Event.logWarning failsafeMsg], k2)
  | (PrimOutcome.err, tr, k2) =>
    (StepResult.done false, tr ++ [ Event.logError errMsg], k2)
  | (PrimOutcome.interrupt, tr, k2) => (StepResult.interrupted, tr, k2)

/-- FormFiller.type_text (main_form_filler.py lines 123-146): optionally
select-all and pause 0.1 s, then write the text at typing_interval. -/
def type_text (cfg : FormFillerConfig) (env : Nat → PrimOutcome) (k : Nat)
    (text : String) (clear_field : Bool := true) : StepResult Bool × List Event × Nat :=
  tryActions env k
    ((if clear_field then [ Event.hotkey "ctrl" "a", Event.sleep (1/10)] else []) ++
      [ Event.write text cfg.typing_interval])
    "FailSafe triggered - stopping automation" "Error typing text"

/-- FormFiller.move_to_next_field (lines 148-177): press tab or enter
(click is a pass), then sleep field_transition_delay; an unknown method
logs a warning and returns False before the sleep. -/
def move_to_next_field (cfg : FormFillerConfig) (env : Nat → PrimOutcome) (k : Nat)
    (method : String := "tab") : StepResult Bool × List Event × Nat :=
  if method = "tab" then
    tryActions env k [ Event.press "tab", Event.sleep cfg.field_transition_delay]
      "FailSafe triggered - stopping automation" "Error moving to next field"
  else if method = "enter" then
    tryActions env k [ Event.press "enter", Event.sleep cfg.field_transition_delay]
      "FailSafe triggered - stopping automation" "Error moving to next field"
  else if method = "click" then
    tryActions env k [ Event.sleep cfg.field_transition_delay]
      "FailSafe triggered - stopping automation" "Error moving to next field"
  else
    (StepResult.done false, [ Event.logWarning ( "Unknown navigation method: " ++ method)], k)

/-- FormFiller.submit_form (lines 179-207): enter → one keypress;
tab_enter → tab, sleep 0.5, enter; any other method (click included)
falls through; then sleep form_submission_delay and return True. -/
def submit_form (cfg : FormFillerConfig) (env : Nat → PrimOutcome) (k : Nat)
    (method : String := "enter") : StepResult Bool × List Event × Nat :=
  if method = "enter" then
    tryActions env k [ Event.press "enter", Event.sleep cfg.form_submission_delay]
      "FailSafe triggered - stopping automation" "Error submitting form"
  else if method = "tab_enter" then
    tryActions env k
      [ Event.press "tab", Event.sleep (1/2), Event.press "enter",
        Event.sleep cfg.form_submission_delay]
      "FailSafe triggered - stopping automation" "Error submitting form"
  else
    tryActions env k [ Event.sleep cfg.form_submission_delay]
      "FailSafe triggered - stopping automation" "Error submitting form"

/-- FormFiller.fill_single_record (lines 209-239): for each field name in
order — if present with a non-NaN value, type_text then
move_to_next_field (both with their default arguments); if present with a
NaN value, do nothing at all; if absent, log a warning and still
move_to_next_field.  Returns False as soon as any step returns False. -/
def fill_single_record (cfg : FormFillerConfig) (env : Nat → PrimOutcome) (k : Nat)
    (record : Record) : List String → StepResult Bool × List Event × Nat
  | [] => (StepResult.done true, [], k)
  | field_name :: rest =>
    match record.lookup field_name with
    | some value =>
      if pdNotna value then
        match type_text cfg env k (valueStr value) with
        | (StepResult.done true, tr1, k1) =>
          match move_to_next_field cfg env k1 with
          | (StepResult.done true, tr2, k2) =>
            match fill_single_record cfg env k2 record rest with
            | (r, tr3, k3) => (r, tr1 ++ tr2 ++ tr3, k3)
          | (StepResult.done false, tr2, k2) => (StepResult.done false, tr1 ++ tr2, k2)
          | (StepResult.interrupted, tr2, k2) => (StepResult.interrupted, tr1 ++ tr2, k2)
        | (StepResult.done false, tr1, k1) => (StepResult.done false, tr1, k1)
        | (StepResult.interrupted, tr1, k1) => (StepResult.interrupted, tr1, k1)
      else
        fill_single_record cfg env k record rest
    | none =>
      match move_to_next_field cfg env k with
      | (StepResult.done true, tr2, k2) =>
        match fill_single_record cfg env k2 record rest with
        | (r, tr3, k3) =>
          (r, Event.logWarningFieldNotFound field_name :: tr2 ++ tr3, k3)
      | (StepResult.done false, tr2, k2) =>
        (StepResult.done false, Event.logWarningFieldNotFound field_name :: tr2, k2)
      | (StepResult.interrupted, tr2, k2) =>
        (StepResult.interrupted, Event.logWarningFieldNotFound field_name :: tr2, k2)

/-- Terminal outcome of one fill_forms run: the loop completed (the
"Form filling completed!" line is logged even after a break, so failures
carry their own outcome), a record failed to fill or submit (loop break),
or a KeyboardInterrupt was caught at record `index`. -/
inductive RunOutcome where
  | completed
  | failedFill (index : Nat)
  | failedSubmit (index : Nat)
  | interrupted (index : Nat)
  deriving DecidableEq

/-- The body of the fill_forms for-loop (lines 260-282), iterated over the
remaining indices: fill the record, submit (both with default method
arguments), sleep record_delay and, when configured, page_load_delay. -/
def fill_forms_loop (cfg : FormFillerConfig) (env : Nat → PrimOutcome)
    (data : List Record) (field_order : List String) :
    List Nat → Nat → RunOutcome × List Event × Nat
  | [], k => (RunOutcome.completed, [], k)
  | index :: rest, k =>
    let procEv := Event.logInfoProcessing (index + 1) data.length
    match fill_single_record cfg env k (data.getD index []) field_order with
    | (StepResult.done true, tr1, k1) =>
      match submit_form cfg env k1 with
      | (StepResult.done true, tr2, k2) =>
        let sleeps := Event.sleep cfg.record_delay ::
          (if cfg.wait_for_page_load then [ Event.sleep cfg.page_load_delay] else [])
        match fill_forms_loop cfg env data field_order rest k2 with
        | (r, tr3, k3) =>
          (r, procEv :: tr1 ++ tr2 ++ sleeps ++ Event.logInfoSuccess (index + 1) :: tr3, k3)
      | (StepResult.done false, tr2, k2) =>
        (RunOutcome.failedSubmit index,
          procEv :: tr1 ++ tr2 ++ [ Event.logErrorFailedSubmit (index + 1)], k2)
      | (StepResult.interrupted, tr2, k2) =>
        (RunOutcome.interrupted index, procEv :: tr1 ++ tr2, k2)
    | (StepResult.done false, tr1, k1) =>
      (RunOutcome.failedFill index,
        procEv :: tr1 ++ [ Event.logErrorFailedFill (index + 1)], k1)
    | (StepResult.interrupted, tr1, k1) =>
      (RunOutcome.interrupted index, procEv :: tr1, k1)

/-- The tail of fill_forms (lines 284-292): after the loop, the
"Form filling completed!" line is logged (it runs even after a break),
except when a KeyboardInterrupt escaped the loop, in which case the
handler logs "Process interrupted by user at record index+1" and prints
the stop message.  `hdr` is the "Processing records start to end-1" line
logged before the loop (line 258). -/
def fill_forms_finish (hdr : Event) :
    RunOutcome × List Event × Nat → RunOutcome × List Event × Nat
  | (RunOutcome.interrupted i, tr, k2) =>
    (RunOutcome.interrupted i, hdr :: tr ++ [ Event.logInfoInterrupted (i + 1)], k2)
  | (r, tr, k2) =>
    (r, hdr :: tr ++ [ Event.logInfoCompleted], k2)

/-- FormFiller.fill_forms (lines 241-292): compute end_row from start_row
and max_records — note `if max_records:` is Python truthiness, so both
None and 0 mean "no limit" — run the loop over range(start_row, end_row),
and handle KeyboardInterrupt by logging the current record number. -/
def fill_forms (cfg : FormFillerConfig) (env : Nat → PrimOutcome) (k : Nat)
    (data : List Record) (field_order : List String)
    (start_row : Nat := 0) (max_records : Option Nat := none) :
    RunOutcome × List Event × Nat :=
  let end_row : Nat :=
    match max_records with
    | some m => if m ≠ 0 then min (start_row + m) data.length else data.length
    | none => data.length
  fill_forms_finish (Event.logInfoHeader (start_row : Int) ((end_row : Int) - 1))
    (fill_forms_loop cfg env data field_order (List.range' start_row (end_row - start_row)) k)

/-- The oracle under which every input-dispatch call succeeds. -/
def envOK : Nat → PrimOutcome := fun _ => PrimOutcome.ok

/-- An oracle failing (generic exception) exactly at dispatch call n. -/
def envErrAt (n : Nat) : Nat → PrimOutcome :=
  fun k => if k = n then PrimOutcome.err else PrimOutcome.ok

/-- An oracle delivering a KeyboardInterrupt exactly at dispatch call n. -/
def envInterruptAt (n : Nat) : Nat → PrimOutcome :=
  fun k => if k = n then PrimOutcome.interrupt else PrimOutcome.ok

/-- The record index carried by a "Processing record i+1/len" log event.
The event stores the printed number index + 1; subtract it back. -/
def procIdx : Event → Option Nat
  | Event.logInfoProcessing n _ => some (n - 1)
  | _ => none

/-- The indices of the records a run started processing, read off its
trace (one "Processing record ..." log line per loop iteration). -/
def startedRecords (tr : List Event) : List Nat :=
  tr.filterMap procIdx

/-- The keys pressed in a trace, in order. -/
def presses (tr : List Event) : List String :=
  tr.filterMap (fun e => match e with | Event.press s => some s | _ => none)

/-- Number of navigation inputs in a trace: fill_single_record only ever
navigates by pressing tab (move_to_next_field with its default method). -/
def countTab (tr : List Event) : Nat :=
  (presses tr).count "tab"

/-- Whether fill_single_record issues a navigation input for a field name:
yes when the name is absent from the record or its value is not NaN; no
when the value is NaN (the whole body is skipped). -/
def shouldAdvance (record : Record) (name : String) : Bool :=
  match record.lookup name with
  | some v => pdNotna v
  | none => true

/-- A one-field record used as concrete test data. -/
def recA : Record := [ ( "a", Value.str "x")]

/-- Three identical one-field records. -/
def dataThree : List Record := [ recA, recA, recA]

/-- Five identical one-field records. -/
def dataFive : List Record := [ recA, recA, recA, recA, recA]

/-- A configuration selecting the non-default navigation and submission
methods. -/
def cfgC2 : FormFillerConfig := { navigation_method := "enter", submission_method := "tab_enter" }

/-- A configuration with a negative field_transition_delay (a section-3
duration invariant violation). -/
def cfgNegDelay : FormFillerConfig := { field_transition_delay := -1 }

end Autoformfiller

namespace Autoformfiller

lemma runSeq_envOK (acts : List Event) : ∀ k : Nat,
    ∃ k2, runSeq envOK k acts = (PrimOutcome.ok, acts, k2) := by
  induction acts with
  | nil => intro k; exact ⟨k, rfl⟩
  | cons e rest ih =>
    intro k
    by_cases hd : isDispatch e = true
    · obtain ⟨k2, h⟩ := ih (k + 1)
      exact ⟨k2, by simp [runSeq, hd, envOK, h]⟩
    · obtain ⟨k2, h⟩ := ih k
      exact ⟨k2, by simp [runSeq, hd, h]⟩

lemma tryActions_envOK (k : Nat) (acts : List Event) (w e : String) :
    ∃ k2, tryActions envOK k acts w e = (StepResult.done true, acts, k2) := by
  obtain ⟨k2, h⟩ := runSeq_envOK acts k
  exact ⟨k2, by simp [tryActions, h]⟩

lemma type_text_envOK (cfg : FormFillerConfig) (k : Nat) (t : String) :
    ∃ k2, type_text cfg envOK k t =
      (StepResult.done true,
        [ Event.hotkey "ctrl" "a", Event.sleep (1/10), Event.write t cfg.typing_interval], k2) := by
  obtain ⟨k2, h⟩ := tryActions_envOK k
    [ Event.hotkey "ctrl" "a", Event.sleep (1/10), Event.write t cfg.typing_interval]
    "FailSafe triggered - stopping automation" "Error typing text"
  exact ⟨k2, by simpa [type_text] using h⟩

lemma move_to_next_field_envOK (cfg : FormFillerConfig) (k : Nat) :
    ∃ k2, move_to_next_field cfg envOK k =
      (StepResult.done true, [ Event.press "tab", Event.sleep cfg.field_transition_delay], k2) := by
  obtain ⟨k2, h⟩ := tryActions_envOK k
    [ Event.press "tab", Event.sleep cfg.field_transition_delay]
    "FailSafe triggered - stopping automation" "Error moving to next field"
  exact ⟨k2, by simpa [move_to_next_field] using h⟩

lemma submit_form_envOK (cfg : FormFillerConfig) (k : Nat) :
    ∃ k2, submit_form cfg envOK k =
      (StepResult.done true, [ Event.press "enter", Event.sleep cfg.form_submission_delay], k2) := by
  obtain ⟨k2, h⟩ := tryActions_envOK k
    [ Event.press "enter", Event.sleep cfg.form_submission_delay]
    "FailSafe triggered - stopping automation" "Error submitting form"
  exact ⟨k2, by simpa [submit_form] using h⟩

lemma runSeq_trace_subset (env : Nat → PrimOutcome) (acts : List Event) : ∀ k : Nat,
    ∀ e ∈ (runSeq env k acts).2.1, e ∈ acts := by
  induction acts with
  | nil => intro k e he; simp [runSeq] at he
  | cons a rest ih =>
    intro k e he
    unfold runSeq at he
    split at he
    · split at he
      · rcases List.mem_cons.mp he with h1 | h1
        · rw [h1]; exact List.mem_cons_self _ _
        · exact List.mem_cons_of_mem _ (ih (k + 1) e h1)
      · simp at he
    · rcases List.mem_cons.mp he with h1 | h1
      · rw [h1]; exact List.mem_cons_self _ _
      · exact List.mem_cons_of_mem _ (ih k e h1)

lemma tryActions_proc_none (env : Nat → PrimOutcome) (k : Nat) (acts : List Event)
    (w er : String) (h : ∀ e ∈ acts, procIdx e = none) :
    ∀ e ∈ (tryActions env k acts w er).2.1, procIdx e = none := by
  intro e he
  rcases hr : runSeq env k acts with ⟨r, tr, k2⟩
  have htr : ∀ x ∈ tr, procIdx x = none := by
    intro x hx
    exact h x (runSeq_trace_subset env acts k x (by rw [hr]; exact hx))
  unfold tryActions at he
  rw [hr] at he
  cases r <;> simp only [List.mem_append, List.mem_singleton] at he
  · exact htr e he
  · rcases he with he | he
    · exact htr e he
    · simp [he, procIdx]
  · rcases he with he | he
    · exact htr e he
    · simp [he, procIdx]
  · exact htr e he

lemma type_text_proc_none (cfg : FormFillerConfig) (env : Nat → PrimOutcome) (k : Nat)
    (t : String) (c : Bool) :
    ∀ e ∈ (type_text cfg env k t c).2.1, procIdx e = none := by
  apply tryActions_proc_none
  intro e he
  cases c
  · simp at he
    simp [he, procIdx]
  · simp at he
    rcases he with rfl | rfl | rfl <;> rfl

lemma move_to_next_field_proc_none (cfg : FormFillerConfig) (env : Nat → PrimOutcome)
    (k : Nat) (m : String) :
    ∀ e ∈ (move_to_next_field cfg env k m).2.1, procIdx e = none := by
  unfold move_to_next_field
  split_ifs
  · apply tryActions_proc_none
    intro e he; simp at he; rcases he with rfl | rfl <;> rfl
  · apply tryActions_proc_none
    intro e he; simp at he; rcases he with rfl | rfl <;> rfl
  · apply tryActions_proc_none
    intro e he; simp at he; simp [he, procIdx]
  · intro e he; simp at he; simp [he, procIdx]

lemma submit_form_proc_none (cfg : FormFillerConfig) (env : Nat → PrimOutcome)
    (k : Nat) (m : String) :
    ∀ e ∈ (submit_form cfg env k m).2.1, procIdx e = none := by
  unfold submit_form
  split_ifs
  · apply tryActions_proc_none
    intro e he; simp at he; rcases he with rfl | rfl <;> rfl
  · apply tryActions_proc_none
    intro e he; simp at he; rcases he with rfl | rfl | rfl | rfl <;> rfl
  · apply tryActions_proc_none
    intro e he; simp at he; simp [he, procIdx]

lemma fill_single_record_proc_none (cfg : FormFillerConfig) (env : Nat → PrimOutcome)
    (record : Record) (order : List String) : ∀ k : Nat,
    ∀ e ∈ (fill_single_record cfg env k record order).2.1, procIdx e = none := by
  induction order with
  | nil => intro k e he; simp [fill_single_record] at he
  | cons name rest ih =>
    intro k e he
    unfold fill_single_record at he
    split at he
    · rename_i v hl
      split at he
      · split at he
        · rename_i tr1 k1 ht
          split at he
          · rename_i tr2 k2 hm
            simp only [List.mem_append] at he
            rcases he with (he | he) | he
            · exact type_text_proc_none cfg env k (valueStr v) true e (by rw [ht]; exact he)
            · exact move_to_next_field_proc_none cfg env k1 "tab" e (by rw [hm]; exact he)
            · exact ih k2 e he
          · rename_i tr2 k2 hm
            simp only [List.mem_append] at he
            rcases he with he | he
            · exact type_text_proc_none cfg env k (valueStr v) true e (by rw [ht]; exact he)
            · exact move_to_next_field_proc_none cfg env k1 "tab" e (by rw [hm]; exact he)
          · rename_i tr2 k2 hm
            simp only [List.mem_append] at he
            rcases he with he | he
            · exact type_text_proc_none cfg env k (valueStr v) true e (by rw [ht]; exact he)
            · exact move_to_next_field_proc_none cfg env k1 "tab" e (by rw [hm]; exact he)
        · rename_i tr1 k1 ht
          exact type_text_proc_none cfg env k (valueStr v) true e (by rw [ht]; exact he)
        · rename_i tr1 k1 ht
          exact type_text_proc_none cfg env k (valueStr v) true e (by rw [ht]; exact he)
      · exact ih k e he
    · rename_i hl
      split at he
      · rename_i tr2 k2 hm
        simp only [List.mem_cons, List.mem_append] at he
        rcases he with (he | he) | he
        · simp [he, procIdx]
        · exact move_to_next_field_proc_none cfg env k "tab" e (by rw [hm]; exact he)
        · exact ih k2 e he
      · rename_i tr2 k2 hm
        simp only [List.mem_cons] at he
        rcases he with he | he
        · simp [he, procIdx]
        · exact move_to_next_field_proc_none cfg env k "tab" e (by rw [hm]; exact he)
      · rename_i tr2 k2 hm
        simp only [List.mem_cons] at he
        rcases he with he | he
        · simp [he, procIdx]
        · exact move_to_next_field_proc_none cfg env k "tab" e (by rw [hm]; exact he)

lemma type_text_congr (cfg cfg' : FormFillerConfig)
    (h : cfg'.typing_interval = cfg.typing_interval) (env : Nat → PrimOutcome) :
    ∀ (k : Nat) (t : String) (c : Bool),
      type_text cfg' env k t c = type_text cfg env k t c := by
  intro k t c
  simp only [type_text, h]

lemma move_to_next_field_congr (cfg cfg' : FormFillerConfig)
    (h : cfg'.field_transition_delay = cfg.field_transition_delay) (env : Nat → PrimOutcome) :
    ∀ (k : Nat) (m : String),
      move_to_next_field cfg' env k m = move_to_next_field cfg env k m := by
  intro k m
  simp only [move_to_next_field, h]

lemma fill_single_record_congr (cfg cfg' : FormFillerConfig)
    (h1 : cfg'.typing_interval = cfg.typing_interval)
    (h2 : cfg'.field_transition_delay = cfg.field_transition_delay)
    (env : Nat → PrimOutcome) (record : Record) (order : List String) : ∀ k : Nat,
    fill_single_record cfg' env k record order = fill_single_record cfg env k record order := by
  induction order with
  | nil => intro k; rfl
  | cons name rest ih =>
    intro k
    unfold fill_single_record
    simp only [type_text_congr cfg cfg' h1 env, move_to_next_field_congr cfg cfg' h2 env, ih]

lemma fill_single_record_nan_skip (cfg : FormFillerConfig) (env : Nat → PrimOutcome)
    (k : Nat) (record : Record) (name : String) (rest : List String) (v : Value)
    (hl : record.lookup name = some v) (hv : pdNotna v = false) :
    fill_single_record cfg env k record (name :: rest) =
      fill_single_record cfg env k record rest := by
  conv_lhs => unfold fill_single_record
  simp [hl, hv]

lemma fill_single_record_envOK (cfg : FormFillerConfig) (record : Record)
    (order : List String) : ∀ k : Nat,
    (fill_single_record cfg envOK k record order).1 = StepResult.done true ∧
    countTab (fill_single_record cfg envOK k record order).2.1 =
      (order.filter (fun n => shouldAdvance record n)).length ∧
    ∀ name ∈ order, record.lookup name = none →
      Event.logWarningFieldNotFound name ∈ (fill_single_record cfg envOK k record order).2.1 := by
  induction order with
  | nil =>
    intro k
    refine ⟨rfl, rfl, ?_⟩
    intro name h
    simp at h
  | cons name rest ih =>
    intro k
    cases hl : record.lookup name with
    | some v =>
      by_cases hv : pdNotna v = true
      · obtain ⟨k1, ht⟩ := type_text_envOK cfg k (valueStr v)
        obtain ⟨k2, hm⟩ := move_to_next_field_envOK cfg k1
        obtain ⟨ihr, ihc, ihw⟩ := ih k2
        have hstep : fill_single_record cfg envOK k record (name :: rest) =
            ((fill_single_record cfg envOK k2 record rest).1,
              [ Event.hotkey "ctrl" "a", Event.sleep (1/10),
                Event.write (valueStr v) cfg.typing_interval] ++
                [ Event.press "tab", Event.sleep cfg.field_transition_delay] ++
                (fill_single_record cfg envOK k2 record rest).2.1,
              (fill_single_record cfg envOK k2 record rest).2.2) := by
          conv_lhs => unfold fill_single_record
          simp only [hl, hv, if_true, ht, hm]
        rw [hstep]
        refine ⟨ihr, ?_, ?_⟩
        · simp only [countTab, presses, List.filterMap_append, List.count_append]
          simp only [countTab, presses] at ihc
          simp [ihc, List.filter_cons, shouldAdvance, hl, hv]
          omega
        · intro nm hnm hlk
          rcases List.mem_cons.mp hnm with rfl | hnm2
          · rw [hl] at hlk
            exact absurd hlk (by simp)
          · simp only [List.mem_append]
            exact Or.inr (ihw nm hnm2 hlk)
      · have hv2 : pdNotna v = false := by
          cases h : pdNotna v
          · rfl
          · exact absurd h hv
        rw [fill_single_record_nan_skip cfg envOK k record name rest v hl hv2]
        obtain ⟨ihr, ihc, ihw⟩ := ih k
        refine ⟨ihr, ?_, ?_⟩
        · simp [List.filter_cons, shouldAdvance, hl, hv2, ihc]
        · intro nm hnm hlk
          rcases List.mem_cons.mp hnm with rfl | hnm2
          · rw [hl] at hlk
            exact absurd hlk (by simp)
          · exact ihw nm hnm2 hlk
    | none =>
      obtain ⟨k2, hm⟩ := move_to_next_field_envOK cfg k
      obtain ⟨ihr, ihc, ihw⟩ := ih k2
      have hstep : fill_single_record cfg envOK k record (name :: rest) =
          ((fill_single_record cfg envOK k2 record rest).1,
            (Event.logWarningFieldNotFound name ::
              [ Event.press "tab", Event.sleep cfg.field_transition_delay]) ++
              (fill_single_record cfg envOK k2 record rest).2.1,
            (fill_single_record cfg envOK k2 record rest).2.2) := by
        conv_lhs => unfold fill_single_record
        simp only [hl, hm]
      rw [hstep]
      refine ⟨ihr, ?_, ?_⟩
      · simp only [countTab, presses, List.filterMap_append, List.count_append]
        simp only [countTab, presses] at ihc
        simp [ihc, List.filter_cons, shouldAdvance, hl]
        omega
      · intro nm hnm hlk
        rcases List.mem_cons.mp hnm with rfl | hnm2
        · simp
        · simp only [List.mem_append]
          exact Or.inr (ihw nm hnm2 hlk)

lemma startedRecords_sleeps (cfg : FormFillerConfig) :
    List.filterMap procIdx
      (if cfg.wait_for_page_load = true then [ Event.sleep cfg.page_load_delay] else []) = [] := by
  cases h : cfg.wait_for_page_load <;> simp [h, procIdx]

lemma fill_forms_loop_envOK (cfg : FormFillerConfig) (data : List Record)
    (field_order : List String) : ∀ n start k : Nat,
    (fill_forms_loop cfg envOK data field_order (List.range' start n) k).1 =
      RunOutcome.completed ∧
    startedRecords (fill_forms_loop cfg envOK data field_order (List.range' start n) k).2.1 =
      List.range' start n := by
  intro n
  induction n with
  | zero => intro start k; exact ⟨rfl, rfl⟩
  | succ n ihn =>
    intro start k
    rw [List.range'_succ]
    rcases hf : fill_single_record cfg envOK k (data.getD start []) field_order with ⟨r1, tr1, k1⟩
    have hr1 : r1 = StepResult.done true := by
      have := (fill_single_record_envOK cfg (data.getD start []) field_order k).1
      rw [hf] at this
      exact this
    subst hr1
    have htr1 : List.filterMap procIdx tr1 = [] := by
      refine List.filterMap_eq_nil.mpr ?_
      intro e he
      exact fill_single_record_proc_none cfg envOK (data.getD start []) field_order k e
        (by rw [hf]; exact he)
    obtain ⟨k2, hsub⟩ := submit_form_envOK cfg k1
    obtain ⟨ihr, ihs⟩ := ihn (start + 1) k2
    constructor
    · unfold fill_forms_loop
      simp only [hf, hsub]
      exact ihr
    · unfold fill_forms_loop
      simp only [hf, hsub]
      simp only [startedRecords] at ihs
      simp [startedRecords, List.filterMap_append, List.filterMap_cons, procIdx, htr1,
        startedRecords_sleeps cfg]
      exact ihs

lemma fill_forms_loop_stopped (cfg : FormFillerConfig) (env : Nat → PrimOutcome)
    (data : List Record) (field_order : List String) : ∀ n start k i : Nat,
    ((fill_forms_loop cfg env data field_order (List.range' start n) k).1 =
        RunOutcome.failedFill i ∨
      (fill_forms_loop cfg env data field_order (List.range' start n) k).1 =
        RunOutcome.failedSubmit i ∨
      (fill_forms_loop cfg env data field_order (List.range' start n) k).1 =
        RunOutcome.interrupted i) →
    start ≤ i ∧
    startedRecords (fill_forms_loop cfg env data field_order (List.range' start n) k).2.1 =
      List.range' start (i + 1 - start) := by
  intro n
  induction n with
  | zero =>
    intro start k i h
    rcases h with h | h | h <;> simp [fill_forms_loop] at h
  | succ n ihn =>
    intro start k i h
    rw [List.range'_succ] at h ⊢
    rcases hf : fill_single_record cfg env k (data.getD start []) field_order with ⟨r1, tr1, k1⟩
    have htr1 : List.filterMap procIdx tr1 = [] := by
      refine List.filterMap_eq_nil.mpr ?_
      intro e he
      exact fill_single_record_proc_none cfg env (data.getD start []) field_order k e
        (by rw [hf]; exact he)
    have hone : start + 1 - start = 1 := by omega
    rcases r1 with b1 | _
    · cases b1
      · -- fill_single_record returned False: the loop breaks with failedFill start
        unfold fill_forms_loop at h ⊢
        simp only [hf] at h ⊢
        have hi : i = start := by
          rcases h with h | h | h <;> simp at h <;> omega
        subst hi
        refine ⟨le_refl i, ?_⟩
        rw [hone]
        simp [startedRecords, List.filterMap_append, List.filterMap_cons, procIdx, htr1]
      · -- fill succeeded
        rcases hs : submit_form cfg env k1 with ⟨r2, tr2, k2⟩
        have htr2 : List.filterMap procIdx tr2 = [] := by
          refine List.filterMap_eq_nil.mpr ?_
          intro e he
          exact submit_form_proc_none cfg env k1 "enter" e (by rw [hs]; exact he)
        rcases r2 with b2 | _
        · cases b2
          · -- submit returned False: failedSubmit start
            unfold fill_forms_loop at h ⊢
            simp only [hf, hs] at h ⊢
            have hi : i = start := by
              rcases h with h | h | h <;> simp at h <;> omega
            subst hi
            refine ⟨le_refl i, ?_⟩
            rw [hone]
            simp [startedRecords, List.filterMap_append, List.filterMap_cons, procIdx,
              htr1, htr2]
          · -- both succeeded: recurse
            unfold fill_forms_loop at h ⊢
            simp only [hf, hs] at h ⊢
            obtain ⟨hle, hrec⟩ := ihn (start + 1) k2 i h
            refine ⟨by omega, ?_⟩
            have hsplit : i + 1 - start = (i - start) + 1 := by omega
            have hsplit2 : i + 1 - (start + 1) = i - start := by omega
            rw [hsplit, List.range'_succ]
            rw [hsplit2] at hrec
            simp only [startedRecords] at hrec
            simp [startedRecords, List.filterMap_append, List.filterMap_cons, procIdx,
              htr1, htr2, startedRecords_sleeps cfg]
            exact hrec
        · -- submit raised KeyboardInterrupt: interrupted start
          unfold fill_forms_loop at h ⊢
          simp only [hf, hs] at h ⊢
          have hi : i = start := by
            rcases h with h | h | h <;> simp at h <;> omega
          subst hi
          refine ⟨le_refl i, ?_⟩
          rw [hone]
          simp [startedRecords, List.filterMap_append, List.filterMap_cons, procIdx,
            htr1, htr2]
    · -- fill raised KeyboardInterrupt: interrupted start
      unfold fill_forms_loop at h ⊢
      simp only [hf] at h ⊢
      have hi : i = start := by
        rcases h with h | h | h <;> simp at h <;> omega
      subst hi
      refine ⟨le_refl i, ?_⟩
      rw [hone]
      simp [startedRecords, List.filterMap_append, List.filterMap_cons, procIdx, htr1]

lemma fill_forms_finish_outcome (hdr : Event) (x : RunOutcome × List Event × Nat) :
    (fill_forms_finish hdr x).1 = x.1 := by
  rcases x with ⟨r, tr, k2⟩
  cases r <;> rfl

lemma fill_forms_finish_started (hdr : Event) (hhdr : procIdx hdr = none)
    (x : RunOutcome × List Event × Nat) :
    startedRecords (fill_forms_finish hdr x).2.1 = startedRecords x.2.1 := by
  rcases x with ⟨r, tr, k2⟩
  cases r <;>
    simp [fill_forms_finish, startedRecords, List.filterMap_append, List.filterMap_cons, hhdr,
      show procIdx Event.logInfoCompleted = none from rfl,
      show ∀ n, procIdx (Event.logInfoInterrupted n) = none from fun n => rfl]

lemma fill_forms_finish_started_hdr (a b : Int) (x : RunOutcome × List Event × Nat) :
    startedRecords (fill_forms_finish (Event.logInfoHeader a b) x).2.1 =
      startedRecords x.2.1 :=
  fill_forms_finish_started (Event.logInfoHeader a b) rfl x

lemma fill_forms_finish_interrupted_mem (hdr : Event) (x : RunOutcome × List Event × Nat)
    (i : Nat) (h : x.1 = RunOutcome.interrupted i) :
    Event.logInfoInterrupted (i + 1) ∈ (fill_forms_finish hdr x).2.1 := by
  rcases x with ⟨r, tr, k2⟩
  cases r with
  | completed => simp at h
  | failedFill j => simp at h
  | failedSubmit j => simp at h
  | interrupted j =>
    have hj : j = i := by simpa using h
    subst hj
    simp [fill_forms_finish]

lemma nonPositive_eq_true_iff (o : Option Int) :
    nonPositive o = true ↔ ∃ v, o = some v ∧ v ≤ 0 := by
  cases o with
  | none => simp [nonPositive]
  | some v => simp [nonPositive]

lemma nonPositive_eq_false_iff (o : Option Int) :
    nonPositive o = false ↔ ∀ v, o = some v → 0 < v := by
  cases o with
  | none => simp [nonPositive]
  | some v =>
    simp only [nonPositive, decide_eq_false_iff_not, Int.not_le, Option.some.injEq]
    constructor
    · intro h w hw
      omega
    · intro h
      exact h v rfl

end Autoformfiller

/- ===== Claim theorems ===== -/

namespace Autoformfiller

/-- C1 counterexample: with the default configuration (skip_empty_fields
true), filling the record containing only a NaN value for field "a" over
field order ["a"] produces an EMPTY trace: no navigation input at all is
issued for the NaN field, contradicting the claim that advanceField is
still invoked for it. -/
theorem C1_counterexample :
    DEFAULT_CONFIG.skip_empty_fields = true ∧
    (fill_single_record DEFAULT_CONFIG envOK 0 [ ( "a", Value.nan)] [ "a"]).2.1 = [] ∧
    countTab (fill_single_record DEFAULT_CONFIG envOK 0 [ ( "a", Value.nan)] [ "a"]).2.1 = 0 :=
  ⟨rfl, rfl, rfl⟩

/-- C1 (amended): when a field name is present in the record with a
NaN/empty value, fill_single_record invokes NEITHER type_text (fillField)
NOR move_to_next_field (advanceField) for that field — the iteration for
that field leaves state and trace untouched; this holds for every
configuration, so in particular when skip_empty_fields is true. -/
theorem C1_nan_field_skipped_entirely (cfg : FormFillerConfig) (env : Nat → PrimOutcome)
    (k : Nat) (record : Record) (name : String) (rest : List String) (v : Value)
    (hl : record.lookup name = some v) (hv : pdNotna v = false) :
    fill_single_record cfg env k record (name :: rest) =
      fill_single_record cfg env k record rest :=
  fill_single_record_nan_skip cfg env k record name rest v hl hv

/-- C1 witness: the amended theorem applied at the concrete NaN record. -/
theorem C1_witness :
    fill_single_record DEFAULT_CONFIG envOK 0 [ ( "a", Value.nan)] [ "a"] =
      fill_single_record DEFAULT_CONFIG envOK 0 [ ( "a", Value.nan)] [] :=
  C1_nan_field_skipped_entirely DEFAULT_CONFIG envOK 0 [ ( "a", Value.nan)] "a" [] Value.nan
    rfl rfl

/-- C2 (code divergence): with navigation_method = "enter" and
submission_method = "tab_enter" configured, a successful one-record run
still presses tab to advance and a single enter to submit — the only key
presses of the whole run are ["tab", "enter"], not the configured
enter-navigation and tab-then-enter submission.  fill_single_record calls
move_to_next_field() and fill_forms calls submit_form() with their
hard-coded defaults ("tab", "enter"); the configured methods are never
passed. -/
theorem C2_methods_ignored :
    cfgC2.navigation_method = "enter" ∧ cfgC2.submission_method = "tab_enter" ∧
    (fill_forms cfgC2 envOK 0 [ recA] [ "a"] 0 none).1 = RunOutcome.completed ∧
    presses (fill_forms cfgC2 envOK 0 [ recA] [ "a"] 0 none).2.1 = [ "tab", "enter"] :=
  ⟨rfl, rfl, rfl, rfl⟩

/-- C3 counterexample: a successful fill_single_record run over field
order ["a", "b"] where "a" is present with a NaN value issues only 1
navigation input, not len(fieldOrder) = 2. -/
theorem C3_counterexample :
    (fill_single_record DEFAULT_CONFIG envOK 0
        [ ( "a", Value.nan), ( "b", Value.str "x")] [ "a", "b"]).1 = StepResult.done true ∧
    countTab (fill_single_record DEFAULT_CONFIG envOK 0
        [ ( "a", Value.nan), ( "b", Value.str "x")] [ "a", "b"]).2.1 = 1 ∧
    ([ "a", "b"] : List String).length = 2 :=
  ⟨rfl, rfl, rfl⟩

/-- C3 (amended): a run of fill_single_record in which every step succeeds
returns success and issues exactly one navigation input per field of the
field order that is NOT present-with-NaN in the record (absent fields and
present non-NaN fields each get one; present NaN fields get none); a field
name absent from the record is logged with the field-not-found warning and
still navigated past. -/
theorem C3_nav_count (cfg : FormFillerConfig) (k : Nat) (record : Record)
    (order : List String) :
    (fill_single_record cfg envOK k record order).1 = StepResult.done true ∧
    countTab (fill_single_record cfg envOK k record order).2.1 =
      (order.filter (fun n => shouldAdvance record n)).length ∧
    ∀ name ∈ order, record.lookup name = none →
      Event.logWarningFieldNotFound name ∈ (fill_single_record cfg envOK k record order).2.1 :=
  fill_single_record_envOK cfg record order k

/-- C3 witness: for the record with only field "a" over order ["a", "b"],
the amended theorem gives 2 navigation inputs and the warning for the
absent field "b". -/
theorem C3_witness :
    countTab (fill_single_record DEFAULT_CONFIG envOK 0
      [ ( "a", Value.str "x")] [ "a", "b"]).2.1 = 2 ∧
    Event.logWarningFieldNotFound "b" ∈
      (fill_single_record DEFAULT_CONFIG envOK 0 [ ( "a", Value.str "x")] [ "a", "b"]).2.1 := by
  constructor
  · have h := (C3_nav_count DEFAULT_CONFIG 0 [ ( "a", Value.str "x")] [ "a", "b"]).2.1
    simpa using h
  · exact (C3_nav_count DEFAULT_CONFIG 0 [ ( "a", Value.str "x")] [ "a", "b"]).2.2 "b"
      (by simp) rfl

/-- C4 counterexample: a configuration whose field_transition_delay is
negative (violating the section-3 "every duration ≥ 0" invariant) passes
validate() without any error — validate never checks this duration. -/
theorem C4_counterexample :
    cfgNegDelay.field_transition_delay < 0 ∧ validate cfgNegDelay = Except.ok () :=
  ⟨by decide, by with_unfolding_all rfl⟩

/-- C4 (amended): validate() succeeds exactly when pause_between_actions
and typing_interval are non-negative, navigation_method, submission_method
and log_level lie in their enumerations, and the optional limits are
positive.  The other four duration fields (field_transition_delay,
form_submission_delay, record_delay, page_load_delay) are never checked,
so negative values there raise no error; conversely an out-of-enumeration
log_level raises an error even though section 3 does not constrain it. -/
theorem C4_validate_characterization (cfg : FormFillerConfig) :
    validate cfg = Except.ok () ↔
      (0 ≤ cfg.pause_between_actions ∧ 0 ≤ cfg.typing_interval ∧
        cfg.navigation_method ∈ ([ "tab", "enter", "click"] : List String) ∧
        cfg.submission_method ∈ ([ "enter", "tab_enter", "click"] : List String) ∧
        cfg.log_level ∈ ([ "DEBUG", "INFO", "WARNING", "ERROR"] : List String) ∧
        (∀ v, cfg.max_field_length = some v → 0 < v) ∧
        (∀ v, cfg.max_records_per_session = some v → 0 < v)) := by
  unfold validate
  split_ifs with h1 h2 h3 h4 h5 h6 h7
  · exact iff_of_false id (fun hc => absurd hc.1 (not_le.mpr h1))
  · exact iff_of_false id (fun hc => absurd hc.2.1 (not_le.mpr h2))
  · refine iff_of_false id (fun hc => ?_)
    obtain ⟨v, hv, hle⟩ := (nonPositive_eq_true_iff _).mp h6
    have := hc.2.2.2.2.2.1 v hv
    omega
  · refine iff_of_false id (fun hc => ?_)
    obtain ⟨v, hv, hle⟩ := (nonPositive_eq_true_iff _).mp h7
    have := hc.2.2.2.2.2.2 v hv
    omega
  · exact iff_of_true rfl ⟨not_lt.mp h1, not_lt.mp h2, h3, h4, h5,
      (nonPositive_eq_false_iff _).mp (by simpa using h6),
      (nonPositive_eq_false_iff _).mp (by simpa using h7)⟩
  · exact iff_of_false id (fun hc => absurd hc.2.2.2.2.1 h5)
  · exact iff_of_false id (fun hc => absurd hc.2.2.2.1 h4)
  · exact iff_of_false id (fun hc => absurd hc.2.2.1 h3)

/-- C5 counterexample: over three records, with a KeyboardInterrupt
delivered during record index 1 (0-based), the run stops with outcome
interrupted-at-1 and its log reports "interrupted at record 2"
(logInfoInterrupted 2) — although the last fully-completed record is
record index 0 (reported as success 1, while success 2 never happened).
The reported number names the interrupted record, not the last completed
one. -/
theorem C5_counterexample :
    (fill_forms DEFAULT_CONFIG (envInterruptAt 5) 0 dataThree [ "a"] 0 none).1 =
      RunOutcome.interrupted 1 ∧
    Event.logInfoInterrupted 2 ∈
      (fill_forms DEFAULT_CONFIG (envInterruptAt 5) 0 dataThree [ "a"] 0 none).2.1 ∧
    Event.logInfoSuccess 1 ∈
      (fill_forms DEFAULT_CONFIG (envInterruptAt 5) 0 dataThree [ "a"] 0 none).2.1 ∧
    Event.logInfoSuccess 2 ∉
      (fill_forms DEFAULT_CONFIG (envInterruptAt 5) 0 dataThree [ "a"] 0 none).2.1 := by
  refine ⟨rfl, by decide, by decide, by decide⟩

/-- C5 (amended): when a user interrupt is observed during record i, the
run stops immediately — the records started are exactly
start_row..i, so no later record begins — and the handler reports the
1-based number i+1 of the record being processed when the interrupt
arrived (the record to resume from), not the index of the last
fully-completed record.  An operator failsafe instead surfaces as a
failed fill/submit (covered by the failure theorem). -/
theorem C5_abort_reports_current_record (cfg : FormFillerConfig) (env : Nat → PrimOutcome)
    (k : Nat) (data : List Record) (field_order : List String) (start_row : Nat)
    (max_records : Option Nat) (i : Nat)
    (h : (fill_forms cfg env k data field_order start_row max_records).1 =
      RunOutcome.interrupted i) :
    start_row ≤ i ∧
    startedRecords (fill_forms cfg env k data field_order start_row max_records).2.1 =
      List.range' start_row (i + 1 - start_row) ∧
    Event.logInfoInterrupted (i + 1) ∈
      (fill_forms cfg env k data field_order start_row max_records).2.1 := by
  simp only [fill_forms] at h ⊢
  rw [fill_forms_finish_outcome] at h
  obtain ⟨hle, hstart⟩ := fill_forms_loop_stopped cfg env data field_order _ start_row k i
    (Or.inr (Or.inr h))
  refine ⟨hle, ?_, ?_⟩
  · rw [fill_forms_finish_started_hdr]
    exact hstart
  · exact fill_forms_finish_interrupted_mem _ _ i h

/-- C5 witness: the concrete interrupted run instantiating the amended
theorem. -/
theorem C5_witness :
    0 ≤ 1 ∧
    startedRecords (fill_forms DEFAULT_CONFIG (envInterruptAt 5) 0 dataThree [ "a"] 0 none).2.1 =
      List.range' 0 (1 + 1 - 0) ∧
    Event.logInfoInterrupted (1 + 1) ∈
      (fill_forms DEFAULT_CONFIG (envInterruptAt 5) 0 dataThree [ "a"] 0 none).2.1 :=
  C5_abort_reports_current_record DEFAULT_CONFIG (envInterruptAt 5) 0 dataThree [ "a"] 0 none 1
    (by decide)

/-- C6: if the run fails at record i (fill or submit returned False), the
records started are exactly start_row..i — the loop breaks and no record
after i is ever processed. -/
theorem C6_failure_stops_run (cfg : FormFillerConfig) (env : Nat → PrimOutcome)
    (k : Nat) (data : List Record) (field_order : List String) (start_row : Nat)
    (max_records : Option Nat) (i : Nat)
    (h : (fill_forms cfg env k data field_order start_row max_records).1 =
        RunOutcome.failedFill i ∨
      (fill_forms cfg env k data field_order start_row max_records).1 =
        RunOutcome.failedSubmit i) :
    start_row ≤ i ∧
    startedRecords (fill_forms cfg env k data field_order start_row max_records).2.1 =
      List.range' start_row (i + 1 - start_row) := by
  simp only [fill_forms] at h ⊢
  rw [fill_forms_finish_outcome] at h
  obtain ⟨hle, hstart⟩ := fill_forms_loop_stopped cfg env data field_order _ start_row k i
    (h.imp id Or.inl)
  refine ⟨hle, ?_⟩
  rw [fill_forms_finish_started_hdr]
  exact hstart

/-- C6 witness: a concrete run failing at record 1 processes exactly
records 0 and 1. -/
theorem C6_witness :
    0 ≤ 1 ∧
    startedRecords (fill_forms DEFAULT_CONFIG (envErrAt 4) 0 dataThree [ "a"] 0 none).2.1 =
      List.range' 0 (1 + 1 - 0) :=
  C6_failure_stops_run DEFAULT_CONFIG (envErrAt 4) 0 dataThree [ "a"] 0 none 1
    (Or.inl (by decide))

/-- C7: with a positive maxRecords m and every action succeeding, the run
completes and the records started are exactly
List.range' start (min (start + m) len - start), i.e. the indices of
[start, start + m) that are below the record count — the intersection
[start, start + m) ∩ [0, len). -/
theorem C7_run_range (cfg : FormFillerConfig) (k : Nat) (data : List Record)
    (field_order : List String) (start_row m : Nat) (hm : 0 < m) :
    (fill_forms cfg envOK k data field_order start_row (some m)).1 = RunOutcome.completed ∧
    startedRecords (fill_forms cfg envOK k data field_order start_row (some m)).2.1 =
      List.range' start_row (min (start_row + m) data.length - start_row) := by
  have hm' : m ≠ 0 := by omega
  have hite : (if m ≠ 0 then min (start_row + m) data.length else data.length) =
      min (start_row + m) data.length := if_pos hm'
  simp only [fill_forms, hite]
  obtain ⟨h1, h2⟩ := fill_forms_loop_envOK cfg data field_order
    (min (start_row + m) data.length - start_row) start_row k
  refine ⟨?_, ?_⟩
  · rw [fill_forms_finish_outcome]
    exact h1
  · rw [fill_forms_finish_started_hdr]
    exact h2

/-- C7 witness: maxRecords = 2 over 5 records starting at 1 processes
exactly records 1 and 2 and completes. -/
theorem C7_witness :
    0 < 2 ∧
    ((fill_forms DEFAULT_CONFIG envOK 0 dataFive [ "a"] 1 (some 2)).1 =
        RunOutcome.completed ∧
      startedRecords (fill_forms DEFAULT_CONFIG envOK 0 dataFive [ "a"] 1 (some 2)).2.1 =
        List.range' 1 (min (1 + 2) dataFive.length - 1)) :=
  ⟨by decide, C7_run_range DEFAULT_CONFIG 0 dataFive [ "a"] 1 2 (by decide)⟩

/-- C8: submit_form with method "enter" issues exactly one enter keypress
then sleeps form_submission_delay; with "tab_enter" it presses tab, sleeps
half a second, presses enter, then sleeps form_submission_delay; both
return success when no input-dispatch error occurs (all-ok oracle). -/
theorem C8_submit_form_sequences (cfg : FormFillerConfig) (k : Nat) :
    submit_form cfg envOK k "enter" =
      (StepResult.done true,
        [ Event.press "enter", Event.sleep cfg.form_submission_delay], k + 1) ∧
    submit_form cfg envOK k "tab_enter" =
      (StepResult.done true,
        [ Event.press "tab", Event.sleep (1/2), Event.press "enter",
          Event.sleep cfg.form_submission_delay], k + 2) :=
  ⟨rfl, rfl⟩

/-- C9: the behavior of fill_single_record is identical for any value of
skip_empty_fields (the flag is never consulted — first conjunct), and a
present NaN/empty field is unconditionally skipped, neither typed nor
advanced past, whatever the rest of the configuration (second conjunct);
together: the two runs differing only in the flag coincide, and both skip
NaN fields entirely. -/
theorem C9_skip_flag_independence :
    (∀ (cfg : FormFillerConfig) (b : Bool) (env : Nat → PrimOutcome) (k : Nat)
        (record : Record) (order : List String),
      fill_single_record { cfg with skip_empty_fields := b } env k record order =
        fill_single_record cfg env k record order) ∧
    (∀ (cfg : FormFillerConfig) (env : Nat → PrimOutcome) (k : Nat) (record : Record)
        (name : String) (rest : List String) (v : Value),
      record.lookup name = some v → pdNotna v = false →
      fill_single_record cfg env k record (name :: rest) =
        fill_single_record cfg env k record rest) := by
  constructor
  · intro cfg b env k record order
    exact fill_single_record_congr cfg { cfg with skip_empty_fields := b } rfl rfl env
      record order k
  · intro cfg env k record name rest v hl hv
    exact fill_single_record_nan_skip cfg env k record name rest v hl hv

/-- C9 witness: flag-independence and NaN-skipping instantiated at a
concrete record, with the flag explicitly false. -/
theorem C9_witness :
    fill_single_record { DEFAULT_CONFIG with skip_empty_fields := false } envOK 0
        [ ( "a", Value.nan)] [ "a"] =
      fill_single_record DEFAULT_CONFIG envOK 0 [ ( "a", Value.nan)] [ "a"] ∧
    fill_single_record { DEFAULT_CONFIG with skip_empty_fields := false } envOK 0
        [ ( "a", Value.nan)] [ "a"] =
      fill_single_record { DEFAULT_CONFIG with skip_empty_fields := false } envOK 0
        [ ( "a", Value.nan)] [] :=
  ⟨C9_skip_flag_independence.1 DEFAULT_CONFIG false envOK 0 [ ( "a", Value.nan)] [ "a"],
   C9_skip_flag_independence.2 { DEFAULT_CONFIG with skip_empty_fields := false } envOK 0
     [ ( "a", Value.nan)] "a" [] Value.nan rfl rfl⟩

/-- C10: max_records = some 0 is Python-falsy, so fill_forms behaves
exactly as with no limit (first conjunct, for every oracle); under the
all-ok oracle it completes having started exactly the records from
start_row to the end of the data (second and third conjuncts). -/
theorem C10_zero_max_records_means_no_limit (cfg : FormFillerConfig) (k : Nat)
    (data : List Record) (field_order : List String) (start_row : Nat) :
    (∀ env : Nat → PrimOutcome,
      fill_forms cfg env k data field_order start_row (some 0) =
        fill_forms cfg env k data field_order start_row none) ∧
    (fill_forms cfg envOK k data field_order start_row (some 0)).1 =
      RunOutcome.completed ∧
    startedRecords (fill_forms cfg envOK k data field_order start_row (some 0)).2.1 =
      List.range' start_row (data.length - start_row) := by
  obtain ⟨h1, h2⟩ := fill_forms_loop_envOK cfg data field_order
    (data.length - start_row) start_row k
  refine ⟨fun env => rfl, ?_, ?_⟩
  · show (fill_forms_finish _ (fill_forms_loop cfg envOK data field_order
      (List.range' start_row (data.length - start_row)) k)).1 = RunOutcome.completed
    rw [fill_forms_finish_outcome]
    exact h1
  · show startedRecords (fill_forms_finish _ (fill_forms_loop cfg envOK data field_order
      (List.range' start_row (data.length - start_row)) k)).2.1 = _
    rw [fill_forms_finish_started_hdr]
    exact h2

end Autoformfiller
